import Mathlib

/-!
Verification development for the power-system simulator
(src/power_system_simulator.py).

The numeric code is embedded shallowly over the real numbers: Python's
`math.sqrt`, `math.atan2`, `math.degrees`, `math.radians`, `math.cos`,
`math.sin` become their Mathlib counterparts on `ℝ`, and the two guarded
divisions keep their source-level conditionals.  The UI session
(`PowerSystemSimulator` together with its three `RotaryDial`s) becomes an
explicit state record, and every mutation of that state (a dial drag, the
mode buttons, a dynamic-mode timer tick) becomes a constructor of a step
relation `Step`.  The pseudo-random factors drawn by
`random.uniform(0.95, 1.05)` become nondeterministic parameters of the
relevant events, constrained to `[0.95, 1.05]` by the step relation.
-/

noncomputable section

open Real

/-- Python `math.degrees`: radians to degrees. -/
def math_degrees (x : ℝ) : ℝ := x * (180 / Real.pi)

/-- Python `math.radians`: degrees to radians. -/
def math_radians (x : ℝ) : ℝ := x * (Real.pi / 180)

/-- Python `math.atan2 y x`: the argument of the point `(x, y)`,
in `(-π, π]` (and `0` at the origin, as in CPython). -/
def math_atan2 (y x : ℝ) : ℝ := Complex.arg ⟨x, y⟩

/-- The intermediate `compensated_impedance_imag` of
`calculate_power_factor` (source line 11). -/
def compensated_impedance_imag (impedance_imag excitation_current : ℝ) : ℝ :=
  impedance_imag - excitation_current * 2

/-- The intermediate `impedance_magnitude` (source line 12). -/
def impedance_magnitude (impedance_real impedance_imag excitation_current : ℝ) : ℝ :=
  Real.sqrt (impedance_real ^ 2 +
    compensated_impedance_imag impedance_imag excitation_current ^ 2)

/-- The intermediate `current` (source line 13), with its division guard. -/
def current_of (voltage impedance_real impedance_imag excitation_current : ℝ) : ℝ :=
  if impedance_magnitude impedance_real impedance_imag excitation_current > 0 then
    voltage / impedance_magnitude impedance_real impedance_imag excitation_current
  else 0

/-- The intermediate `angle` (source line 14), in degrees. -/
def angle_of (impedance_real impedance_imag excitation_current : ℝ) : ℝ :=
  math_degrees (math_atan2
    (compensated_impedance_imag impedance_imag excitation_current) impedance_real)

/-- The intermediate `real_power` (source line 15). -/
def real_power_of (voltage impedance_real impedance_imag excitation_current : ℝ) : ℝ :=
  voltage * current_of voltage impedance_real impedance_imag excitation_current *
    Real.cos (math_radians (angle_of impedance_real impedance_imag excitation_current))

/-- The intermediate `apparent_power` (source line 16). -/
def apparent_power_of (voltage impedance_real impedance_imag excitation_current : ℝ) : ℝ :=
  voltage * current_of voltage impedance_real impedance_imag excitation_current

/-- The intermediate `reactive_power` (source line 17). -/
def reactive_power_of (voltage impedance_real impedance_imag excitation_current : ℝ) : ℝ :=
  voltage * current_of voltage impedance_real impedance_imag excitation_current *
    Real.sin (math_radians (angle_of impedance_real impedance_imag excitation_current))

/-- The intermediate `power_factor` before clamping (source line 18),
with its division guard. -/
def raw_power_factor (voltage impedance_real impedance_imag excitation_current : ℝ) : ℝ :=
  if apparent_power_of voltage impedance_real impedance_imag excitation_current > 0 then
    real_power_of voltage impedance_real impedance_imag excitation_current /
      apparent_power_of voltage impedance_real impedance_imag excitation_current
  else 0

/-- The six-tuple returned by `calculate_power_factor` (source line 19),
as a record in the source's return order. -/
structure PFResult where
  current : ℝ
  power_factor : ℝ
  angle : ℝ
  real_power : ℝ
  apparent_power : ℝ
  reactive_power : ℝ

/-- `calculate_power_factor` (source lines 10-19): the pure core function.
The returned `power_factor` is the raw ratio clamped by
`max(0, min(power_factor, 1))`. -/
def calculate_power_factor
    (voltage impedance_real impedance_imag excitation_current : ℝ) : PFResult :=
  { current := current_of voltage impedance_real impedance_imag excitation_current
    power_factor :=
      max 0 (min (raw_power_factor voltage impedance_real impedance_imag excitation_current) 1)
    angle := angle_of impedance_real impedance_imag excitation_current
    real_power := real_power_of voltage impedance_real impedance_imag excitation_current
    apparent_power := apparent_power_of voltage impedance_real impedance_imag excitation_current
    reactive_power := reactive_power_of voltage impedance_real impedance_imag excitation_current }

/-- The advisory kinds a status update can print (source lines 216-224). -/
inductive Advisory where
  | laggingLow
  | leadingLow
  | highPF
  | stable

/-- The advisory branch of `PowerSystemSimulator.update_status`
(source lines 216-224), as a pure classification: `none` means the call
inserts no advisory line.  The branch order and comparison operators are
exactly those of the source's `if`/`elif` chain, so at most one advisory
is produced per call by construction. -/
def classify (power_factor reactive_power : ℝ) : Option Advisory :=
  if power_factor < 0.95 then
    if reactive_power > 0 then some .laggingLow
    else if reactive_power < 0 then some .leadingLow
    else none
  else if power_factor > 0.98 then some .highPF
  else if 0.95 ≤ power_factor ∧ power_factor ≤ 0.98 then some .stable
  else none

/-- Python's built-in `round` on a real value: nearest integer, ties to
even (used by `RotaryDial.on_drag`, source line 64). -/
def python_round (x : ℝ) : ℤ :=
  if Int.fract x < 1 / 2 then ⌊x⌋
  else if 1 / 2 < Int.fract x then ⌊x⌋ + 1
  else if Even ⌊x⌋ then ⌊x⌋ else ⌊x⌋ + 1

/-- Python's float `%` for a positive modulus: `a - b * ⌊a / b⌋`
(used by `RotaryDial.on_drag`, source line 60). -/
def python_fmod (a b : ℝ) : ℝ := a - b * ⌊a / b⌋

/-- The numeric state of a `RotaryDial` widget (source lines 21-33);
rendering-only attributes (label, callback, canvas items) are outside the
embedding. -/
structure RotaryDial where
  min_val : ℝ
  max_val : ℝ
  value : ℝ
  angle : ℝ
  step : ℝ

/-- `RotaryDial.__init__` (source lines 22-31): initial angle is the
value's position in the dial's range scaled to 360 degrees. -/
def RotaryDial.init (min_val max_val initial_val step : ℝ) : RotaryDial :=
  { min_val := min_val
    max_val := max_val
    value := initial_val
    angle := (initial_val - min_val) / (max_val - min_val) * 360
    step := step }

/-- `RotaryDial.on_drag` (source lines 56-65): the state change of a drag
event at canvas coordinates `(event_x, event_y)`.  The raw value is
quantized to the dial's step and then clamped to `[min_val, max_val]`.
The trailing `draw_dial` and callback invocation (lines 66-67) are the
caller's concern. -/
def RotaryDial.on_drag (d : RotaryDial) (event_x event_y : ℝ) : RotaryDial :=
  let dx := event_x - 100
  let dy := event_y - 100
  let angle := math_atan2 dy dx
  let degrees := python_fmod (math_degrees angle + 450) 360
  let raw_value := d.min_val + (d.max_val - d.min_val) * (degrees / 360)
  let quantized := (python_round (raw_value / d.step) : ℝ) * d.step
  { d with angle := degrees, value := max d.min_val (min d.max_val quantized) }

/-- The mutable state of a `PowerSystemSimulator` session
(source lines 70-79) together with its three dials and one extra Boolean,
`tick_pending`, recording whether a `root.after` callback of
`simulate_dynamic_load` is currently scheduled (a tick in flight). -/
structure SimState where
  voltage : ℝ
  impedance_real : ℝ
  impedance_imag : ℝ
  excitation_current : ℝ
  power_factor_history : List ℝ
  dynamic_mode : Bool
  real_impedance_dial : RotaryDial
  imag_impedance_dial : RotaryDial
  excitation_dial : RotaryDial
  tick_pending : Bool

/-- `PowerSystemSimulator.update_simulation` (source lines 192-203):
copy the dial values into the circuit parameters, recompute the sample,
and append its clamped power factor to the history.  The status-text and
plot redraws (lines 202-203) read but never write this state. -/
def update_simulation (s : SimState) : SimState :=
  let impedance_real := s.real_impedance_dial.value
  let impedance_imag := s.imag_impedance_dial.value
  let excitation_current := s.excitation_dial.value
  let sample := calculate_power_factor s.voltage impedance_real impedance_imag excitation_current
  { s with
    impedance_real := impedance_real
    impedance_imag := impedance_imag
    excitation_current := excitation_current
    power_factor_history := s.power_factor_history ++ [sample.power_factor] }

/-- `PowerSystemSimulator.set_static_mode` (source lines 176-177). -/
def set_static_mode (s : SimState) : SimState := { s with dynamic_mode := false }

/-- The body of `PowerSystemSimulator.simulate_dynamic_load`
(source lines 183-190), with the two values drawn from
`random.uniform(0.95, 1.05)` passed in as `f1` and `f2`: when
`dynamic_mode` holds, both impedance dial values are scaled, the
simulation is updated, and the next tick is scheduled
(`tick_pending := true`); otherwise nothing happens and no tick is
scheduled. -/
def simulate_dynamic_load (s : SimState) (f1 f2 : ℝ) : SimState :=
  if s.dynamic_mode then
    let s1 := { s with
      real_impedance_dial :=
        { s.real_impedance_dial with value := s.real_impedance_dial.value * f1 }
      imag_impedance_dial :=
        { s.imag_impedance_dial with value := s.imag_impedance_dial.value * f2 } }
    { update_simulation s1 with tick_pending := true }
  else s

/-- `PowerSystemSimulator.set_dynamic_mode` (source lines 179-181):
raise the flag, then run `simulate_dynamic_load` once immediately. -/
def set_dynamic_mode (s : SimState) (f1 f2 : ℝ) : SimState :=
  simulate_dynamic_load { s with dynamic_mode := true } f1 f2

/-- The initial session state built by `PowerSystemSimulator.__init__` and
`setup_ui` (source lines 70-114): voltage 230, impedances 5 and 5,
excitation 0, empty history, static mode, dials bounded to `[1,20]`,
`[1,20]` and `[0,10]` with step `0.5`. -/
def initial_state : SimState :=
  { voltage := 230
    impedance_real := 5
    impedance_imag := 5
    excitation_current := 0
    power_factor_history := []
    dynamic_mode := false
    real_impedance_dial := RotaryDial.init 1 20 5 0.5
    imag_impedance_dial := RotaryDial.init 1 20 5 0.5
    excitation_dial := RotaryDial.init 0 10 0 0.5
    tick_pending := false }

/-- The events that mutate session state: a drag on one of the three
dials (with the pointer's canvas coordinates), the two mode buttons, and
a scheduled timer tick.  The dynamic-mode button and the tick carry the
two pseudo-random factors their `simulate_dynamic_load` run draws. -/
inductive Event where
  | dragReal (x y : ℝ)
  | dragImag (x y : ℝ)
  | dragExcitation (x y : ℝ)
  | staticButton
  | dynamicButton (f1 f2 : ℝ)
  | timerTick (f1 f2 : ℝ)

/-- The range of `random.uniform(0.95, 1.05)`. -/
def UniformFactor (f : ℝ) : Prop := 0.95 ≤ f ∧ f ≤ 1.05

/-- The step relation of the session: one constructor per event source.
A dial drag runs `on_drag` and then the dial's callback
`update_simulation`; a timer tick can fire only while one is scheduled
(`tick_pending`), consumes that scheduling, and runs
`simulate_dynamic_load`. -/
inductive Step : SimState → Event → SimState → Prop where
  | dragReal (s : SimState) (x y : ℝ) :
      Step s (.dragReal x y)
        (update_simulation
          { s with real_impedance_dial := s.real_impedance_dial.on_drag x y })
  | dragImag (s : SimState) (x y : ℝ) :
      Step s (.dragImag x y)
        (update_simulation
          { s with imag_impedance_dial := s.imag_impedance_dial.on_drag x y })
  | dragExcitation (s : SimState) (x y : ℝ) :
      Step s (.dragExcitation x y)
        (update_simulation
          { s with excitation_dial := s.excitation_dial.on_drag x y })
  | staticButton (s : SimState) :
      Step s .staticButton (set_static_mode s)
  | dynamicButton (s : SimState) (f1 f2 : ℝ)
      (h1 : UniformFactor f1) (h2 : UniformFactor f2) :
      Step s (.dynamicButton f1 f2) (set_dynamic_mode s f1 f2)
  | timerTick (s : SimState) (f1 f2 : ℝ)
      (hp : s.tick_pending = true)
      (h1 : UniformFactor f1) (h2 : UniformFactor f2) :
      Step s (.timerTick f1 f2)
        (simulate_dynamic_load { s with tick_pending := false } f1 f2)

/-- A finite run of the session: the reflexive-transitive closure of
`Step`, remembering the event list. -/
inductive Trace : SimState → List Event → SimState → Prop where
  | refl (s : SimState) : Trace s [] s
  | cons (s s1 s2 : SimState) (e : Event) (es : List Event) :
      Step s e s1 → Trace s1 es s2 → Trace s (e :: es) s2

/-- The dial bounds fixed by `setup_ui` (source lines 85-114). -/
def dials_configured (s : SimState) : Prop :=
  s.real_impedance_dial.min_val = 1 ∧ s.real_impedance_dial.max_val = 20 ∧
  s.imag_impedance_dial.min_val = 1 ∧ s.imag_impedance_dial.max_val = 20 ∧
  s.excitation_dial.min_val = 0 ∧ s.excitation_dial.max_val = 10

/-- The parameter-range invariant claimed by the data model: both
impedance parameters in `[1,20]` and the excitation current in `[0,10]`,
for the dial values and for the session's copies of them alike. -/
def params_in_range (s : SimState) : Prop :=
  1 ≤ s.real_impedance_dial.value ∧ s.real_impedance_dial.value ≤ 20 ∧
  1 ≤ s.imag_impedance_dial.value ∧ s.imag_impedance_dial.value ≤ 20 ∧
  0 ≤ s.excitation_dial.value ∧ s.excitation_dial.value ≤ 10 ∧
  1 ≤ s.impedance_real ∧ s.impedance_real ≤ 20 ∧
  1 ≤ s.impedance_imag ∧ s.impedance_imag ≤ 20 ∧
  0 ≤ s.excitation_current ∧ s.excitation_current ≤ 10

/-- Recognizer for timer-tick events. -/
def is_tick : Event → Bool
  | .timerTick _ _ => true
  | _ => false

/-- Recognizer for dynamic-mode button events (the only event that can
re-enable the timer chain). -/
def is_enable : Event → Bool
  | .dynamicButton _ _ => true
  | _ => false

/-- Claim C1: for every input with `realImpedance ≥ 1`,
`imaginaryImpedance ∈ [1,20]`, `excitationCurrent ∈ [0,10]` and
`voltage ≥ 0`, the `powerFactor` returned by `calculate_power_factor`
lies in `[0,1]`; a raw value below `0` is clamped to `0` and a raw value
above `1` is clamped to `1`. -/
theorem power_factor_clamped (voltage zr zi ec : ℝ)
    (hzr : 1 ≤ zr) (hzi1 : 1 ≤ zi) (hzi2 : zi ≤ 20)
    (hec1 : 0 ≤ ec) (hec2 : ec ≤ 10) (hv : 0 ≤ voltage) :
    (0 ≤ (calculate_power_factor voltage zr zi ec).power_factor ∧
      (calculate_power_factor voltage zr zi ec).power_factor ≤ 1) ∧
    (raw_power_factor voltage zr zi ec < 0 →
      (calculate_power_factor voltage zr zi ec).power_factor = 0) ∧
    (1 < raw_power_factor voltage zr zi ec →
      (calculate_power_factor voltage zr zi ec).power_factor = 1) := by
  have hpf : (calculate_power_factor voltage zr zi ec).power_factor
      = max 0 (min (raw_power_factor voltage zr zi ec) 1) := rfl
  refine ⟨⟨?_, ?_⟩, fun hneg => ?_, fun hbig => ?_⟩
  · rw [hpf]; exact le_max_left 0 _
  · rw [hpf]
    exact max_le (by norm_num) (min_le_right _ 1)
  · rw [hpf, min_eq_left (hneg.le.trans (by norm_num)), max_eq_left hneg.le]
  · rw [hpf, min_eq_right hbig.le, max_eq_right (by norm_num)]

/-- Witness for C1 at the session's initial parameters. -/
theorem power_factor_clamped_witness :
    ((1:ℝ) ≤ 5 ∧ (1:ℝ) ≤ 5 ∧ (5:ℝ) ≤ 20 ∧ (0:ℝ) ≤ 0 ∧ (0:ℝ) ≤ 10 ∧ (0:ℝ) ≤ 230) ∧
    0 ≤ (calculate_power_factor 230 5 5 0).power_factor ∧
    (calculate_power_factor 230 5 5 0).power_factor ≤ 1 :=
  ⟨by norm_num,
    (power_factor_clamped 230 5 5 0 (by norm_num) (by norm_num) (by norm_num)
      (by norm_num) (by norm_num) (by norm_num)).1.1,
    (power_factor_clamped 230 5 5 0 (by norm_num) (by norm_num) (by norm_num)
      (by norm_num) (by norm_num) (by norm_num)).1.2⟩

/-- Claim C2: the advisory classification follows the specified table
with the source's branch order: below `0.95` the sign of the reactive
power picks lagging, leading, or no message; above `0.98` the
high-power-factor advisory fires; in the band `[0.95, 0.98]` (including
exactly `0.98`) the stable advisory fires.  At most one advisory per
call is immediate from `classify` returning a single `Option`. -/
theorem classify_follows_table (pf rp : ℝ) :
    (pf < 0.95 → 0 < rp → classify pf rp = some Advisory.laggingLow) ∧
    (pf < 0.95 → rp < 0 → classify pf rp = some Advisory.leadingLow) ∧
    (pf < 0.95 → rp = 0 → classify pf rp = none) ∧
    (0.98 < pf → classify pf rp = some Advisory.highPF) ∧
    (0.95 ≤ pf → pf ≤ 0.98 → classify pf rp = some Advisory.stable) ∧
    classify 0.98 rp = some Advisory.stable := by
  have hstable : ∀ x y : ℝ, 0.95 ≤ x → x ≤ 0.98 → classify x y = some Advisory.stable := by
    intro x y h1 h2
    rw [classify, if_neg (not_lt.mpr h1), if_neg (not_lt.mpr h2), if_pos ⟨h1, h2⟩]
  refine ⟨fun h1 h2 => ?_, fun h1 h2 => ?_, fun h1 h2 => ?_, fun h => ?_,
    hstable pf rp, hstable 0.98 rp (by norm_num) (by norm_num)⟩
  · rw [classify, if_pos h1, if_pos h2]
  · rw [classify, if_pos h1, if_neg (not_lt.mpr h2.le), if_pos h2]
  · rw [classify, if_pos h1, if_neg (by rw [h2]; exact lt_irrefl 0),
      if_neg (by rw [h2]; exact lt_irrefl 0)]
  · rw [classify, if_neg (not_lt.mpr ((by norm_num : (0.95:ℝ) ≤ 0.98).trans h.le)),
      if_pos h]

/-- Witness for C2: the stable band at exactly `0.98` and the lagging
advisory at a concrete low power factor. -/
theorem classify_follows_table_witness :
    classify 0.98 1 = some Advisory.stable ∧ classify 0.5 1 = some Advisory.laggingLow :=
  ⟨(classify_follows_table 0.98 1).2.2.2.2.2,
    (classify_follows_table 0.5 1).1 (by norm_num) (by norm_num)⟩

/-- Claim C5: `calculate_power_factor` is total: the two divisions are
guarded, `current` being `voltage / impedanceMagnitude` only when the
magnitude is positive and `0` otherwise, and the raw power factor being
`realPower / apparentPower` only when the apparent power is positive and
`0` otherwise; the returned power factor is the clamped raw ratio. -/
theorem division_guards (voltage zr zi ec : ℝ) :
    (0 < impedance_magnitude zr zi ec →
      (calculate_power_factor voltage zr zi ec).current
        = voltage / impedance_magnitude zr zi ec) ∧
    (¬ 0 < impedance_magnitude zr zi ec →
      (calculate_power_factor voltage zr zi ec).current = 0) ∧
    (0 < (calculate_power_factor voltage zr zi ec).apparent_power →
      raw_power_factor voltage zr zi ec
        = (calculate_power_factor voltage zr zi ec).real_power
          / (calculate_power_factor voltage zr zi ec).apparent_power) ∧
    (¬ 0 < (calculate_power_factor voltage zr zi ec).apparent_power →
      raw_power_factor voltage zr zi ec = 0) ∧
    (calculate_power_factor voltage zr zi ec).power_factor
      = max 0 (min (raw_power_factor voltage zr zi ec) 1) := by
  refine ⟨fun h => ?_, fun h => ?_, fun h => ?_, fun h => ?_, rfl⟩
  · show current_of voltage zr zi ec = _
    rw [current_of, if_pos h]
  · show current_of voltage zr zi ec = 0
    rw [current_of, if_neg h]
  · have h' : apparent_power_of voltage zr zi ec > 0 := h
    show raw_power_factor voltage zr zi ec = _
    rw [raw_power_factor, if_pos h']
    rfl
  · have h' : ¬ apparent_power_of voltage zr zi ec > 0 := h
    rw [raw_power_factor, if_neg h']

/-- Witness for C5 at a positive impedance magnitude. -/
theorem division_guards_witness :
    0 < impedance_magnitude 5 5 0 ∧
    (calculate_power_factor 230 5 5 0).current = 230 / impedance_magnitude 5 5 0 := by
  have hmag : 0 < impedance_magnitude 5 5 0 := by
    rw [impedance_magnitude]
    exact Real.sqrt_pos.mpr (by rw [compensated_impedance_imag]; norm_num)
  exact ⟨hmag, (division_guards 230 5 5 0).1 hmag⟩

/-- Converting the phase angle to degrees and back to radians is the
identity on reals, so the source's degree/radian round trip through
`angle` is exact in the embedding. -/
lemma math_radians_math_degrees (x : ℝ) : math_radians (math_degrees x) = x := by
  rw [math_radians, math_degrees]
  field_simp

/-- The complex modulus of the point `(x, y)` is the Euclidean norm. -/
lemma abs_complex_mk (x y : ℝ) : Complex.abs ⟨x, y⟩ = Real.sqrt (x ^ 2 + y ^ 2) := by
  rw [Complex.abs_apply, Complex.normSq_mk]
  ring_nf

/-- Sine of the two-argument arctangent. -/
lemma sin_math_atan2 (y x : ℝ) :
    Real.sin (math_atan2 y x) = y / Real.sqrt (x ^ 2 + y ^ 2) := by
  rw [math_atan2, Complex.sin_arg, abs_complex_mk]

/-- On the right half plane the two-argument arctangent is the ordinary
arctangent of the slope. -/
lemma math_atan2_of_pos (y x : ℝ) (hx : 0 < x) :
    math_atan2 y x = Real.arctan (y / x) := by
  have h1 : |Complex.arg ⟨x, y⟩| < Real.pi / 2 :=
    Complex.abs_arg_lt_pi_div_two_iff.mpr (Or.inl hx)
  have h2 := abs_lt.mp h1
  have h3 := Real.arctan_tan h2.1 h2.2
  rw [Complex.tan_arg] at h3
  exact h3.symm

/-- Claim C4: at voltage 230, impedances 5 and 5 and excitation 2.5 the
compensated reactance vanishes, so `calculate_power_factor` returns
exactly current 46, phase angle 0, real and apparent power 10580,
reactive power 0 and power factor 1, and the classification of that
sample is the high-power-factor advisory. -/
theorem scenario_two_exact :
    calculate_power_factor 230 5 5 2.5
      = { current := 46, power_factor := 1, angle := 0, real_power := 10580,
          apparent_power := 10580, reactive_power := 0 } ∧
    classify (calculate_power_factor 230 5 5 2.5).power_factor
      (calculate_power_factor 230 5 5 2.5).reactive_power = some Advisory.highPF := by
  have hcomp : compensated_impedance_imag 5 2.5 = 0 := by
    rw [compensated_impedance_imag]; norm_num
  have hmag : impedance_magnitude 5 5 2.5 = 5 := by
    rw [impedance_magnitude, hcomp]
    rw [show (5:ℝ) ^ 2 + 0 ^ 2 = 5 ^ 2 by norm_num]
    exact Real.sqrt_sq (by norm_num)
  have hcur : current_of 230 5 5 2.5 = 46 := by
    rw [current_of, hmag, if_pos (by norm_num : (5:ℝ) > 0)]
    norm_num
  have hangle : angle_of 5 5 2.5 = 0 := by
    rw [angle_of, hcomp, math_atan2]
    rw [show Complex.arg ⟨5, 0⟩ = 0 from Complex.arg_eq_zero_iff.mpr ⟨by norm_num, rfl⟩]
    rw [math_degrees]; ring
  have hrp : real_power_of 230 5 5 2.5 = 10580 := by
    rw [real_power_of, hcur, hangle, math_radians, zero_mul, Real.cos_zero]
    norm_num
  have hap : apparent_power_of 230 5 5 2.5 = 10580 := by
    rw [apparent_power_of, hcur]; norm_num
  have hreact : reactive_power_of 230 5 5 2.5 = 0 := by
    rw [reactive_power_of, hcur, hangle, math_radians, zero_mul, Real.sin_zero]
    ring
  have hraw : raw_power_factor 230 5 5 2.5 = 1 := by
    rw [raw_power_factor, hap, if_pos (by norm_num : (10580:ℝ) > 0), hrp]
    norm_num
  have hpf : (calculate_power_factor 230 5 5 2.5).power_factor = 1 := by
    show max 0 (min (raw_power_factor 230 5 5 2.5) 1) = 1
    rw [hraw]; norm_num
  refine ⟨?_, ?_⟩
  · simp only [calculate_power_factor, PFResult.mk.injEq, hraw, hcur, hangle, hrp, hap, hreact]
    norm_num
  · have hre : (calculate_power_factor 230 5 5 2.5).reactive_power = 0 := hreact
    rw [hpf, hre, classify, if_neg (by norm_num), if_pos (by norm_num)]

/-- Claim C6: the compensated reactance is strictly decreasing in the
excitation current, and for positive real impedance the phase angle is
positive and strictly decreasing (moving toward 0) while the compensated
reactance is still positive, is exactly 0 when it vanishes, and is
negative once it has crossed 0. -/
theorem excitation_monotonicity (voltage zr zi e1 e2 : ℝ)
    (hzr : 0 < zr) (h12 : e1 < e2) :
    compensated_impedance_imag zi e2 < compensated_impedance_imag zi e1 ∧
    (0 < compensated_impedance_imag zi e2 →
      0 < (calculate_power_factor voltage zr zi e2).angle ∧
      (calculate_power_factor voltage zr zi e2).angle
        < (calculate_power_factor voltage zr zi e1).angle) ∧
    (compensated_impedance_imag zi e2 < 0 →
      (calculate_power_factor voltage zr zi e2).angle < 0) ∧
    (compensated_impedance_imag zi e2 = 0 →
      (calculate_power_factor voltage zr zi e2).angle = 0) := by
  have hlt : compensated_impedance_imag zi e2 < compensated_impedance_imag zi e1 := by
    rw [compensated_impedance_imag, compensated_impedance_imag]
    linarith
  have hdegpos : 0 < (180:ℝ) / Real.pi := div_pos (by norm_num) Real.pi_pos
  have hangle : ∀ e : ℝ, (calculate_power_factor voltage zr zi e).angle
      = Real.arctan (compensated_impedance_imag zi e / zr) * (180 / Real.pi) := by
    intro e
    show angle_of zr zi e = _
    rw [angle_of, math_atan2_of_pos _ _ hzr, math_degrees]
  refine ⟨hlt, fun hpos => ⟨?_, ?_⟩, fun hneg => ?_, fun hzero => ?_⟩
  · rw [hangle]
    have h1 : 0 < compensated_impedance_imag zi e2 / zr := div_pos hpos hzr
    have h2 : Real.arctan 0 < Real.arctan (compensated_impedance_imag zi e2 / zr) :=
      Real.arctan_strictMono h1
    rw [Real.arctan_zero] at h2
    exact mul_pos h2 hdegpos
  · rw [hangle, hangle]
    have h1 : compensated_impedance_imag zi e2 / zr
        < compensated_impedance_imag zi e1 / zr :=
      (div_lt_div_iff_of_pos_right hzr).mpr hlt
    exact mul_lt_mul_of_pos_right (Real.arctan_strictMono h1) hdegpos
  · rw [hangle]
    have h1 : compensated_impedance_imag zi e2 / zr < 0 := div_neg_of_neg_of_pos hneg hzr
    have h2 : Real.arctan (compensated_impedance_imag zi e2 / zr) < Real.arctan 0 :=
      Real.arctan_strictMono h1
    rw [Real.arctan_zero] at h2
    exact mul_neg_of_neg_of_pos h2 hdegpos
  · rw [hangle, hzero, zero_div, Real.arctan_zero, zero_mul]

/-- Witness for C6 going from excitation 0 to excitation 1 at impedances
5 and 5: the compensated reactance drops and the phase angle strictly
approaches 0 from above. -/
theorem excitation_monotonicity_witness :
    ((0:ℝ) < 5 ∧ (0:ℝ) < 1 ∧ 0 < compensated_impedance_imag 5 1) ∧
    compensated_impedance_imag 5 1 < compensated_impedance_imag 5 0 ∧
    0 < (calculate_power_factor 230 5 5 1).angle ∧
    (calculate_power_factor 230 5 5 1).angle < (calculate_power_factor 230 5 5 0).angle := by
  have hc : 0 < compensated_impedance_imag 5 1 := by
    rw [compensated_impedance_imag]; norm_num
  have h := excitation_monotonicity 230 5 5 0 1 (by norm_num) (by norm_num)
  exact ⟨⟨by norm_num, by norm_num, hc⟩, h.1, (h.2.1 hc).1, (h.2.1 hc).2⟩

/-- Claim C9: with positive voltage and positive impedance magnitude the
raw power factor is exactly the cosine of the phase angle, hence never
exceeds 1, the upper clamp branch is inactive, and the returned power
factor is `max 0 (cos phaseAngleRadians)`; converting the returned
degree-valued angle back to radians recovers the `atan2` value. -/
theorem power_factor_eq_cos (voltage zr zi ec : ℝ)
    (hv : 0 < voltage) (hmag : 0 < impedance_magnitude zr zi ec) :
    raw_power_factor voltage zr zi ec
      = Real.cos (math_atan2 (compensated_impedance_imag zi ec) zr) ∧
    raw_power_factor voltage zr zi ec ≤ 1 ∧
    min (raw_power_factor voltage zr zi ec) 1 = raw_power_factor voltage zr zi ec ∧
    (calculate_power_factor voltage zr zi ec).power_factor
      = max 0 (Real.cos (math_radians ((calculate_power_factor voltage zr zi ec).angle))) ∧
    math_radians ((calculate_power_factor voltage zr zi ec).angle)
      = math_atan2 (compensated_impedance_imag zi ec) zr := by
  have hround : math_radians (angle_of zr zi ec)
      = math_atan2 (compensated_impedance_imag zi ec) zr := by
    rw [angle_of, math_radians_math_degrees]
  have hc : current_of voltage zr zi ec = voltage / impedance_magnitude zr zi ec := by
    rw [current_of, if_pos hmag]
  have hcpos : 0 < current_of voltage zr zi ec := by
    rw [hc]; exact div_pos hv hmag
  have happ : 0 < apparent_power_of voltage zr zi ec := by
    rw [apparent_power_of]; exact mul_pos hv hcpos
  have hraw : raw_power_factor voltage zr zi ec
      = Real.cos (math_radians (angle_of zr zi ec)) := by
    have happ' : apparent_power_of voltage zr zi ec > 0 := happ
    rw [raw_power_factor, if_pos happ', real_power_of, apparent_power_of]
    exact mul_div_cancel_left₀ _
      (ne_of_gt (show (0:ℝ) < voltage * current_of voltage zr zi ec from happ))
  have hcos1 : raw_power_factor voltage zr zi ec ≤ 1 := by
    rw [hraw]; exact Real.cos_le_one _
  refine ⟨by rw [hraw, hround], hcos1, min_eq_left hcos1, ?_, hround⟩
  show max 0 (min (raw_power_factor voltage zr zi ec) 1) = _
  rw [min_eq_left hcos1, hraw]
  rfl

/-- Witness for C9 at the session's initial parameters. -/
theorem power_factor_eq_cos_witness :
    ((0:ℝ) < 230 ∧ 0 < impedance_magnitude 5 5 0) ∧
    raw_power_factor 230 5 5 0 ≤ 1 ∧
    min (raw_power_factor 230 5 5 0) 1 = raw_power_factor 230 5 5 0 := by
  have hmag : 0 < impedance_magnitude 5 5 0 := by
    rw [impedance_magnitude]
    exact Real.sqrt_pos.mpr (by rw [compensated_impedance_imag]; norm_num)
  have h := power_factor_eq_cos 230 5 5 0 (by norm_num) hmag
  exact ⟨⟨by norm_num, hmag⟩, h.2.1, h.2.2.1⟩

/-- Signs pass through multiplication by a positive factor. -/
lemma mul_sign_iffs (k c : ℝ) (hk : 0 < k) :
    (0 < k * c ↔ 0 < c) ∧ (k * c = 0 ↔ c = 0) ∧ (k * c < 0 ↔ c < 0) := by
  refine ⟨⟨fun h => ?_, fun h => mul_pos hk h⟩,
    ⟨fun h => ?_, fun h => by rw [h, mul_zero]⟩,
    ⟨fun h => ?_, fun h => mul_neg_of_pos_of_neg hk h⟩⟩
  · nlinarith
  · rcases mul_eq_zero.mp h with h' | h'
    · exact absurd h' (ne_of_gt hk)
    · exact h'
  · nlinarith

/-- Claim C10: with positive voltage and positive real impedance, the
sign of the returned reactive power equals the sign of the compensated
reactance: positive exactly when `imaginaryImpedance > 2 × excitation`,
zero exactly at equality, negative exactly below it. -/
theorem reactive_power_sign (voltage zr zi ec : ℝ)
    (hv : 0 < voltage) (hzr : 0 < zr) :
    (0 < (calculate_power_factor voltage zr zi ec).reactive_power ↔ 2 * ec < zi) ∧
    ((calculate_power_factor voltage zr zi ec).reactive_power = 0 ↔ zi = 2 * ec) ∧
    ((calculate_power_factor voltage zr zi ec).reactive_power < 0 ↔ zi < 2 * ec) := by
  have hmag : 0 < impedance_magnitude zr zi ec := by
    rw [impedance_magnitude]
    exact Real.sqrt_pos.mpr
      (add_pos_of_pos_of_nonneg (pow_pos hzr 2) (sq_nonneg _))
  have hcpos : 0 < current_of voltage zr zi ec := by
    rw [current_of, if_pos hmag]; exact div_pos hv hmag
  have hk : 0 < voltage * current_of voltage zr zi ec / impedance_magnitude zr zi ec :=
    div_pos (mul_pos hv hcpos) hmag
  have hreact : (calculate_power_factor voltage zr zi ec).reactive_power
      = voltage * current_of voltage zr zi ec / impedance_magnitude zr zi ec
        * compensated_impedance_imag zi ec := by
    show reactive_power_of voltage zr zi ec = _
    rw [reactive_power_of, angle_of, math_radians_math_degrees, sin_math_atan2,
      impedance_magnitude]
    ring
  obtain ⟨h1, h2, h3⟩ := mul_sign_iffs _ _ hk
  refine ⟨?_, ?_, ?_⟩
  · rw [hreact, h1, compensated_impedance_imag, sub_pos, mul_comm]
  · rw [hreact, h2, compensated_impedance_imag, sub_eq_zero, mul_comm]
  · rw [hreact, h3, compensated_impedance_imag, sub_neg, mul_comm]

/-- Witness for C10 at the session's initial parameters: there the
compensated reactance is 5 > 0, so the reactive power is positive. -/
theorem reactive_power_sign_witness :
    ((0:ℝ) < 230 ∧ (0:ℝ) < 5) ∧
    0 < (calculate_power_factor 230 5 5 0).reactive_power :=
  ⟨⟨by norm_num, by norm_num⟩,
    (reactive_power_sign 230 5 5 0 (by norm_num) (by norm_num)).1.mpr (by norm_num)⟩

/-- With dynamic mode enabled, one `simulate_dynamic_load` run scales
both impedance dials, updates the simulation and schedules the next
tick. -/
lemma simulate_dynamic_load_of_true (s : SimState) (f1 f2 : ℝ)
    (hd : s.dynamic_mode = true) :
    simulate_dynamic_load s f1 f2 =
      { update_simulation
          { s with
            real_impedance_dial :=
              { s.real_impedance_dial with value := s.real_impedance_dial.value * f1 }
            imag_impedance_dial :=
              { s.imag_impedance_dial with value := s.imag_impedance_dial.value * f2 } }
        with tick_pending := true } := by
  rw [simulate_dynamic_load, hd]
  rfl

/-- With dynamic mode disabled, `simulate_dynamic_load` does nothing: in
particular it does not schedule another tick. -/
lemma simulate_dynamic_load_of_false (s : SimState) (f1 f2 : ℝ)
    (hd : s.dynamic_mode = false) :
    simulate_dynamic_load s f1 f2 = s := by
  rw [simulate_dynamic_load, hd]
  rfl

/-- A drag always leaves the dial's value inside the dial's own bounds,
thanks to the final clamp of `on_drag` (source line 65). -/
lemma on_drag_value_mem (d : RotaryDial) (x y : ℝ) (h : d.min_val ≤ d.max_val) :
    d.min_val ≤ (d.on_drag x y).value ∧ (d.on_drag x y).value ≤ d.max_val := by
  constructor
  · exact le_max_left _ _
  · exact max_le h (min_le_left _ _)

/-- Claim C7: each `update_simulation` call appends exactly the fresh
sample's clamped power factor to the history, and no step of the system
ever removes or reorders history elements: every step's new history is
the old one either unchanged or extended by a single element.  The
appended value is computed by the pure `calculate_power_factor` from the
current parameters alone, so the core computation itself never touches
the history. -/
theorem history_append_only :
    (∀ s : SimState, (update_simulation s).power_factor_history
      = s.power_factor_history ++
        [(calculate_power_factor s.voltage s.real_impedance_dial.value
            s.imag_impedance_dial.value s.excitation_dial.value).power_factor]) ∧
    (∀ (s : SimState) (e : Event) (s' : SimState), Step s e s' →
      s'.power_factor_history = s.power_factor_history ∨
      ∃ x : ℝ, s'.power_factor_history = s.power_factor_history ++ [x]) := by
  constructor
  · intro s; rfl
  · intro s e s' hstep
    cases hstep with
    | dragReal x y => exact Or.inr ⟨_, rfl⟩
    | dragImag x y => exact Or.inr ⟨_, rfl⟩
    | dragExcitation x y => exact Or.inr ⟨_, rfl⟩
    | staticButton => exact Or.inl rfl
    | dynamicButton f1 f2 h1 h2 => exact Or.inr ⟨_, rfl⟩
    | timerTick f1 f2 hp h1 h2 =>
      cases hd : s.dynamic_mode with
      | false =>
        left
        rw [simulate_dynamic_load_of_false _ f1 f2 rfl]
      | true =>
        right
        rw [simulate_dynamic_load_of_true _ f1 f2 rfl]
        exact ⟨_, rfl⟩

/-- Witness for C7: a static-mode button press leaves the history
untouched (the left disjunct). -/
theorem history_append_only_witness :
    (set_static_mode initial_state).power_factor_history
        = initial_state.power_factor_history ∨
      ∃ x : ℝ, (set_static_mode initial_state).power_factor_history
        = initial_state.power_factor_history ++ [x] :=
  history_append_only.2 initial_state .staticButton _ (Step.staticButton initial_state)

/-- A state whose dials are all at legal positions (real impedance dial
parked at its upper bound 20) with dynamic mode on and a tick in
flight.  Used to exhibit the failure of the range invariant. -/
def cex_state : SimState :=
  { voltage := 230
    impedance_real := 20
    impedance_imag := 5
    excitation_current := 0
    power_factor_history := []
    dynamic_mode := true
    real_impedance_dial := { min_val := 1, max_val := 20, value := 20, angle := 360, step := 0.5 }
    imag_impedance_dial := { min_val := 1, max_val := 20, value := 5, angle := 0, step := 0.5 }
    excitation_dial := { min_val := 0, max_val := 10, value := 0, angle := 0, step := 0.5 }
    tick_pending := true }

/-- From any dynamic-mode state with a tick in flight, a run of `n`
ticks whose real-impedance factor is always 1.05 (legal for
`random.uniform(0.95, 1.05)`) multiplies the real-impedance dial value
by `1.05 ^ n`, keeping the mode on and a tick in flight. -/
lemma tick_reach : ∀ (n : ℕ) (s : SimState),
    s.dynamic_mode = true → s.tick_pending = true →
    ∃ (es : List Event) (s' : SimState), Trace s es s' ∧
      s'.real_impedance_dial.value = s.real_impedance_dial.value * 1.05 ^ n ∧
      s'.dynamic_mode = true ∧ s'.tick_pending = true := by
  intro n
  induction n with
  | zero =>
    intro s hm hp
    exact ⟨[], s, Trace.refl s, by rw [pow_zero, mul_one], hm, hp⟩
  | succ n ih =>
    intro s hm hp
    have hstep : Step s (.timerTick 1.05 1)
        (simulate_dynamic_load { s with tick_pending := false } 1.05 1) :=
      Step.timerTick s 1.05 1 hp
        ⟨by norm_num, by norm_num⟩ ⟨by norm_num, by norm_num⟩
    have heq := simulate_dynamic_load_of_true { s with tick_pending := false } 1.05 1 hm
    have hm1 : (simulate_dynamic_load { s with tick_pending := false } 1.05 1).dynamic_mode
        = true := by rw [heq]; exact hm
    have hp1 : (simulate_dynamic_load { s with tick_pending := false } 1.05 1).tick_pending
        = true := by rw [heq]
    have hv1 : (simulate_dynamic_load
          { s with tick_pending := false } 1.05 1).real_impedance_dial.value
        = s.real_impedance_dial.value * 1.05 := by rw [heq]; rfl
    obtain ⟨es, s2, htr, hval, hm2, hp2⟩ := ih _ hm1 hp1
    refine ⟨.timerTick 1.05 1 :: es, s2, Trace.cons _ _ _ _ _ hstep htr, ?_, hm2, hp2⟩
    rw [hval, hv1]
    ring

/-- Counterexample to claim C3 as stated, in both readings.  First, a
single mutation can leave the claimed ranges: from a state whose dials
are all legally positioned (real impedance 20) a tick with factor 1.05
drives the real impedance to 21.  Second, such a state is genuinely
reachable: from the initial state, pressing the dynamic-mode button and
letting 28 ticks fire, each with real factor 1.05, puts the
real-impedance parameter at `5 × 1.05²⁹ > 20`, outside `[1,20]`. -/
theorem params_range_not_preserved :
    (¬ ∀ (s : SimState) (e : Event) (s' : SimState),
        dials_configured s → params_in_range s → Step s e s' → params_in_range s') ∧
    ∃ (es : List Event) (s' : SimState),
      Trace initial_state es s' ∧ ¬ params_in_range s' := by
  constructor
  · intro hall
    have hconf : dials_configured cex_state := ⟨rfl, rfl, rfl, rfl, rfl, rfl⟩
    have hrange : params_in_range cex_state := by
      refine ⟨?_, ?_, ?_, ?_, ?_, ?_, ?_, ?_, ?_, ?_, ?_, ?_⟩ <;> norm_num [cex_state]
    have hstep : Step cex_state (.timerTick 1.05 1)
        (simulate_dynamic_load { cex_state with tick_pending := false } 1.05 1) :=
      Step.timerTick cex_state 1.05 1 rfl
        ⟨by norm_num, by norm_num⟩ ⟨by norm_num, by norm_num⟩
    have hres := hall cex_state (.timerTick 1.05 1) _ hconf hrange hstep
    have hval : (20 : ℝ) * 1.05 ≤ 20 := hres.2.1
    norm_num at hval
  · have hstep1 : Step initial_state (.dynamicButton 1.05 1)
        (set_dynamic_mode initial_state 1.05 1) :=
      Step.dynamicButton initial_state 1.05 1
        ⟨by norm_num, by norm_num⟩ ⟨by norm_num, by norm_num⟩
    obtain ⟨es, s', htr, hval, hm, hp⟩ :=
      tick_reach 28 (set_dynamic_mode initial_state 1.05 1) rfl rfl
    refine ⟨.dynamicButton 1.05 1 :: es, s',
      Trace.cons _ _ _ _ _ hstep1 htr, fun hrange => ?_⟩
    have hv : s'.real_impedance_dial.value = 5 * 1.05 * 1.05 ^ 28 := hval
    have hle : s'.real_impedance_dial.value ≤ 20 := hrange.2.1
    rw [hv] at hle
    norm_num at hle

/-- Claim C3 amended: every mutation keeps the excitation current within
`[0,10]`, and user dial interaction (any of the three drags) keeps every
parameter within its range — but a dynamic-mode tick only rescales the
impedance dials, so those can leave `[1,20]` (see the counterexample).
Dial bounds themselves are never mutated. -/
theorem params_in_range_amended (s : SimState) (e : Event) (s' : SimState)
    (hconf : dials_configured s) (hrange : params_in_range s) (hstep : Step s e s') :
    (0 ≤ s'.excitation_dial.value ∧ s'.excitation_dial.value ≤ 10 ∧
      0 ≤ s'.excitation_current ∧ s'.excitation_current ≤ 10) ∧
    ((∃ x y : ℝ, e = .dragReal x y ∨ e = .dragImag x y ∨ e = .dragExcitation x y) →
      params_in_range s') ∧
    dials_configured s' := by
  obtain ⟨hc1, hc2, hc3, hc4, hc5, hc6⟩ := hconf
  obtain ⟨hr1, hr2, hr3, hr4, hr5, hr6, hr7, hr8, hr9, hr10, hr11, hr12⟩ := hrange
  cases hstep with
  | dragReal x y =>
    have hb := on_drag_value_mem s.real_impedance_dial x y (by rw [hc1, hc2]; norm_num)
    exact ⟨⟨hr5, hr6, hr5, hr6⟩,
      fun _ => ⟨hc1 ▸ hb.1, hc2 ▸ hb.2, hr3, hr4, hr5, hr6,
        hc1 ▸ hb.1, hc2 ▸ hb.2, hr3, hr4, hr5, hr6⟩,
      hc1, hc2, hc3, hc4, hc5, hc6⟩
  | dragImag x y =>
    have hb := on_drag_value_mem s.imag_impedance_dial x y (by rw [hc3, hc4]; norm_num)
    exact ⟨⟨hr5, hr6, hr5, hr6⟩,
      fun _ => ⟨hr1, hr2, hc3 ▸ hb.1, hc4 ▸ hb.2, hr5, hr6,
        hr1, hr2, hc3 ▸ hb.1, hc4 ▸ hb.2, hr5, hr6⟩,
      hc1, hc2, hc3, hc4, hc5, hc6⟩
  | dragExcitation x y =>
    have hb := on_drag_value_mem s.excitation_dial x y (by rw [hc5, hc6]; norm_num)
    exact ⟨⟨hc5 ▸ hb.1, hc6 ▸ hb.2, hc5 ▸ hb.1, hc6 ▸ hb.2⟩,
      fun _ => ⟨hr1, hr2, hr3, hr4, hc5 ▸ hb.1, hc6 ▸ hb.2,
        hr1, hr2, hr3, hr4, hc5 ▸ hb.1, hc6 ▸ hb.2⟩,
      hc1, hc2, hc3, hc4, hc5, hc6⟩
  | staticButton =>
    exact ⟨⟨hr5, hr6, hr11, hr12⟩,
      fun ⟨x, y, h⟩ => by rcases h with h | h | h <;> exact Event.noConfusion h,
      hc1, hc2, hc3, hc4, hc5, hc6⟩
  | dynamicButton f1 f2 h1 h2 =>
    exact ⟨⟨hr5, hr6, hr5, hr6⟩,
      fun ⟨x, y, h⟩ => by rcases h with h | h | h <;> exact Event.noConfusion h,
      hc1, hc2, hc3, hc4, hc5, hc6⟩
  | timerTick f1 f2 hp h1 h2 =>
    cases hd : s.dynamic_mode with
    | false =>
      rw [simulate_dynamic_load_of_false _ f1 f2 rfl]
      exact ⟨⟨hr5, hr6, hr11, hr12⟩,
        fun ⟨x, y, h⟩ => by rcases h with h | h | h <;> exact Event.noConfusion h,
        hc1, hc2, hc3, hc4, hc5, hc6⟩
    | true =>
      rw [simulate_dynamic_load_of_true _ f1 f2 rfl]
      exact ⟨⟨hr5, hr6, hr5, hr6⟩,
        fun ⟨x, y, h⟩ => by rcases h with h | h | h <;> exact Event.noConfusion h,
        hc1, hc2, hc3, hc4, hc5, hc6⟩

/-- Witness for the amended C3 at the initial state under a static-mode
button press. -/
theorem params_in_range_amended_witness :
    (dials_configured initial_state ∧ params_in_range initial_state) ∧
    (0 ≤ (set_static_mode initial_state).excitation_dial.value ∧
      (set_static_mode initial_state).excitation_dial.value ≤ 10 ∧
      0 ≤ (set_static_mode initial_state).excitation_current ∧
      (set_static_mode initial_state).excitation_current ≤ 10) := by
  have hconf : dials_configured initial_state := ⟨rfl, rfl, rfl, rfl, rfl, rfl⟩
  have hrange : params_in_range initial_state := by
    refine ⟨?_, ?_, ?_, ?_, ?_, ?_, ?_, ?_, ?_, ?_, ?_, ?_⟩ <;>
      norm_num [initial_state, RotaryDial.init]
  exact ⟨⟨hconf, hrange⟩,
    (params_in_range_amended initial_state .staticButton _ hconf hrange
      (Step.staticButton initial_state)).1⟩

/-- The number of timer ticks in an event list. -/
def tick_count : List Event → Nat
  | [] => 0
  | e :: es => (if is_tick e then 1 else 0) + tick_count es

/-- No event other than the dynamic-mode button can turn the dynamic
mode back on. -/
lemma step_mode_false {s : SimState} {e : Event} {s' : SimState}
    (h : Step s e s') (hm : s.dynamic_mode = false) (he : is_enable e = false) :
    s'.dynamic_mode = false := by
  cases h with
  | dragReal x y => exact hm
  | dragImag x y => exact hm
  | dragExcitation x y => exact hm
  | staticButton => rfl
  | dynamicButton f1 f2 h1 h2 => simp [is_enable] at he
  | timerTick f1 f2 hp h1 h2 =>
    rw [simulate_dynamic_load_of_false { s with tick_pending := false } f1 f2 hm]
    exact hm

/-- In static mode, an event that is neither a tick nor the dynamic
button leaves the tick scheduling untouched. -/
lemma step_pending_not_tick {s : SimState} {e : Event} {s' : SimState}
    (h : Step s e s') (hm : s.dynamic_mode = false)
    (he : is_enable e = false) (ht : is_tick e = false) :
    s'.tick_pending = s.tick_pending := by
  cases h with
  | dragReal x y => rfl
  | dragImag x y => rfl
  | dragExcitation x y => rfl
  | staticButton => rfl
  | dynamicButton f1 f2 h1 h2 => simp [is_enable] at he
  | timerTick f1 f2 hp h1 h2 => simp [is_tick] at ht

/-- A timer tick can fire only while one is scheduled. -/
lemma step_tick_pending {s : SimState} {f1 f2 : ℝ} {s' : SimState}
    (h : Step s (.timerTick f1 f2) s') : s.tick_pending = true := by
  cases h; assumption

/-- A timer tick that finds the dynamic mode disabled leaves no tick
scheduled. -/
lemma step_tick_mode_false {s : SimState} {f1 f2 : ℝ} {s' : SimState}
    (h : Step s (.timerTick f1 f2) s') (hm : s.dynamic_mode = false) :
    s'.tick_pending = false := by
  cases h with
  | timerTick hp h1 h2 =>
    rw [simulate_dynamic_load_of_false { s with tick_pending := false } f1 f2 hm]

/-- With the mode off and no tick scheduled, no run that avoids the
dynamic button ever contains a tick. -/
lemma trace_no_tick :
    ∀ (s : SimState) (es : List Event) (s' : SimState), Trace s es s' →
      s.dynamic_mode = false → s.tick_pending = false →
      (∀ e ∈ es, is_enable e = false) → tick_count es = 0 := by
  intro s es s' h
  induction h with
  | refl s => intro _ _ _; rfl
  | cons s s1 s2 e es hstep htrace ih =>
    intro hm hp he
    have he1 : is_enable e = false := he e (List.mem_cons_self e es)
    have he2 : ∀ e' ∈ es, is_enable e' = false :=
      fun e' h' => he e' (List.mem_cons_of_mem e h')
    cases hte : is_tick e with
    | true =>
      cases e <;> simp [is_tick] at hte
      have hpend := step_tick_pending hstep
      rw [hp] at hpend
      exact Bool.noConfusion hpend
    | false =>
      have hm1 := step_mode_false hstep hm he1
      have hp1 : s1.tick_pending = false :=
        (step_pending_not_tick hstep hm he1 hte).trans hp
      simp [tick_count, hte]
      exact ih hm1 hp1 he2

/-- With the mode off, a run that avoids the dynamic button contains at
most one tick: the one already in flight, which fires without effect and
schedules nothing further. -/
lemma trace_tick_bound :
    ∀ (s : SimState) (es : List Event) (s' : SimState), Trace s es s' →
      s.dynamic_mode = false → (∀ e ∈ es, is_enable e = false) →
      tick_count es ≤ 1 := by
  intro s es s' h
  induction h with
  | refl s => intro _ _; simp [tick_count]
  | cons s s1 s2 e es hstep htrace ih =>
    intro hm he
    have he1 : is_enable e = false := he e (List.mem_cons_self e es)
    have he2 : ∀ e' ∈ es, is_enable e' = false :=
      fun e' h' => he e' (List.mem_cons_of_mem e h')
    have hm1 := step_mode_false hstep hm he1
    cases hte : is_tick e with
    | false =>
      simp [tick_count, hte]
      exact ih hm1 he2
    | true =>
      cases e <;> simp [is_tick] at hte
      have hpend : s1.tick_pending = false := step_tick_mode_false hstep hm
      have hzero := trace_no_tick s1 es s2 htrace hm1 hpend he2
      simp [tick_count, is_tick, hzero]

/-- Claim C8: a tick checks the dynamic-mode flag first.  When the flag
is set the tick scales both impedance dials by its two random factors,
recomputes (appending the fresh power factor to the history), and
schedules the next tick; when the flag has been cleared the tick does
nothing at all — the state is unchanged and, in particular, no further
tick is scheduled.  Consequently once the mode is off, any run that does
not press the dynamic button again contains at most one further tick
(the one already in flight), so the chain stops. -/
theorem dynamic_tick_chain :
    (∀ (s : SimState) (f1 f2 : ℝ), s.dynamic_mode = true →
      (simulate_dynamic_load s f1 f2).real_impedance_dial.value
          = s.real_impedance_dial.value * f1 ∧
      (simulate_dynamic_load s f1 f2).imag_impedance_dial.value
          = s.imag_impedance_dial.value * f2 ∧
      (simulate_dynamic_load s f1 f2).power_factor_history
          = s.power_factor_history ++
            [(calculate_power_factor s.voltage (s.real_impedance_dial.value * f1)
                (s.imag_impedance_dial.value * f2) s.excitation_dial.value).power_factor] ∧
      (simulate_dynamic_load s f1 f2).tick_pending = true) ∧
    (∀ (s : SimState) (f1 f2 : ℝ), s.dynamic_mode = false →
      simulate_dynamic_load s f1 f2 = s) ∧
    (∀ (s : SimState) (es : List Event) (s' : SimState), Trace s es s' →
      s.dynamic_mode = false → (∀ e ∈ es, is_enable e = false) →
      tick_count es ≤ 1) := by
  refine ⟨fun s f1 f2 hd => ?_, simulate_dynamic_load_of_false, trace_tick_bound⟩
  rw [simulate_dynamic_load_of_true s f1 f2 hd]
  exact ⟨rfl, rfl, rfl, rfl⟩

/-- Witness for C8: the initial state is in static mode, a
`simulate_dynamic_load` run there changes nothing, and the empty run
contains no tick. -/
theorem dynamic_tick_chain_witness :
    (initial_state.dynamic_mode = false ∧
      simulate_dynamic_load initial_state 1 1 = initial_state) ∧
    tick_count [] ≤ 1 :=
  ⟨⟨rfl, dynamic_tick_chain.2.1 initial_state 1 1 rfl⟩,
    dynamic_tick_chain.2.2 initial_state [] initial_state
      (Trace.refl initial_state) rfl (by simp)⟩

end


